import Mathlib

/-!
# Verification of the AI test-generation agent (`src/utility/ai_agent.js`)

Shallow embedding of the generate–write–execute repair loop and its helpers.
External effects (the generative service and the spawned test process) are
modelled by an environment `Env` supplying, per framework and per attempt
index, the service response (or thrown error) and the process outcome.
Observable actions (generation requests with their prompt text, file writes
with their content, process executions) are recorded in a trace.
-/

namespace AiAgent

/-- The three framework identifiers handled by the agent
(keys of `OUTPUT_FILES` / `basePrompts` and cases of the `switch` in
`executeTestScript`). -/
inductive Framework where
  | PLAYWRIGHT
  | TESTCAFE
  | SELENIUM
deriving DecidableEq, Repr

/-- Table OUTPUT_FILES (ai_agent.js lines 53–57): fixed output file name
per framework. -/
def OUTPUT_FILES : Framework → String
  | .PLAYWRIGHT => "google_navigation.playwright.spec.ts"
  | .TESTCAFE => "google_navigation.testcafe.ts"
  | .SELENIUM => "google_navigation.selenium.spec.cjs"

/-- Constant MAX_ATTEMPTS (line 58). -/
def MAX_ATTEMPTS : Nat := 3

/-! ## Project Context Scanner (`getProjectContext`, lines 61–80) -/

/-- A directory tree as enumerated by readdirSync with file types: each
entry is a file or a directory with children, in filesystem enumeration
order. -/
inductive FsEntry where
  | file (name : String)
  | dir (name : String) (children : List FsEntry)
deriving Repr

/-- Directory names excluded by the scanner (line 69): node_modules and
.git are skipped entirely. -/
def excludedDirs : List String := ["node_modules", ".git"]

/-- Line 72: item.name ends with .ts or with .js; the suffix test is
modelled at character level so that it evaluates inside proofs. -/
def isSourceFile (name : String) : Bool :=
  ".ts".data.isSuffixOf name.data || ".js".data.isSuffixOf name.data

/-- Function readDirRecursive (lines 64–76): pushes the directory marker
line for every non-excluded directory and recurses into it, pushes the file
marker line for every .ts/.js file; path.join is modelled as inserting a
slash. -/
def readDirRecursive (dir : String) : List FsEntry → List String
  | [] => []
  | FsEntry.dir name children :: rest =>
      if excludedDirs.contains name then
        readDirRecursive dir rest
      else
        ("📁 " ++ dir ++ "/" ++ name)
          :: (readDirRecursive (dir ++ "/" ++ name) children
              ++ readDirRecursive dir rest)
  | FsEntry.file name :: rest =>
      if isSourceFile name then
        ("📄 " ++ dir ++ "/" ++ name) :: readDirRecursive dir rest
      else
        readDirRecursive dir rest

/-- Function getProjectContext (lines 61–80): scans from the project root and joins
the collected lines with newlines.  The scan only reads the tree (modelled as
the pure argument `entries`); it performs no writes. -/
def getProjectContext (root : String) (entries : List FsEntry) : String :=
  String.intercalate "\n" (readDirRecursive root entries)

/-! ## Prompt Builder (`basePrompts`, lines 86–116, and the prompt
composition in `generateTestScript`, lines 123–127)

`basePrompts` embeds the context manifest (`getProjectContext()`) and the
tests directory (`TESTDIR`); both are values fixed at startup, passed here
as the parameters `ctx` and `testdir`. -/

/-- Table basePrompts (lines 86–116), with the startup-computed context
manifest and tests directory as parameters. -/
def basePrompts (ctx testdir : String) : Framework → String
  | .PLAYWRIGHT =>
      "Generate an accurate and fully executable Playwright test script in TypeScript.\nProject Structure Context:\n"
      ++ ctx
      ++ "\n\nCurrent working directory: " ++ testdir
      ++ "\nTarget output file: " ++ OUTPUT_FILES .PLAYWRIGHT
      ++ "\n\nInclude meaningful inline comments to explain each step. The output should be code-only, with no explanation or description outside the code block. Also console log each test step."
  | .TESTCAFE =>
      "Generate an accurate and fully executable in CLI TestCafe test script in TypeScript.\nProject Structure Context:\n"
      ++ ctx
      ++ "\n\nCurrent working directory: " ++ testdir
      ++ "\nTarget output file: " ++ OUTPUT_FILES .TESTCAFE
      ++ "\n\nInclude meaningful inline comments to explain each step. The output should be code-only, with no explanation or description outside the code block. Also console log each test step.\n\nalso handle invisible elements and wait for them to be visible before interacting with them. handle unwanted popups and alerts gracefully."
  | .SELENIUM =>
      "Generate an accurate and fully executable Selenium WebDriver test script in JavaScript .\nProject Structure Context:\n"
      ++ ctx
      ++ "\n\nCurrent working directory: " ++ testdir
      ++ "\nTarget output file: " ++ OUTPUT_FILES .SELENIUM
      ++ "\n\nUse Selenium WebDriver with JavaScript (CommonJS). Use require() instead of import. The test should use mocha describe and it functions.\n\nInclude meaningful inline comments to explain each step. The output should be code-only, with no explanation or description outside the code block. Also console log each test step.\nHandle popups and alerts gracefully. Wait for elements to be visible before interacting with them."

/-- The fixed scenario text userPrompt (lines 118–121), sent as a second
user part with every generation request. -/
def userPrompt : String :=
  "Navigate to https://www.webpagetest.org/ and handle any popups, \nwait for 2 seconds,\nthen navigate to thoughtworks.com and wait for 2 seconds,\nthen close the browser"

/-- The prompt composition of generateTestScript (lines 124–127): with a
truthy errorContext the failure suffix is appended to the base prompt,
otherwise the base prompt alone; the empty string is the JS-falsy case of
no prior error, which is how lastError starts. -/
def promptText (ctx testdir : String) (fw : Framework) (errorContext : String) : String :=
  if errorContext = "" then basePrompts ctx testdir fw
  else
    basePrompts ctx testdir fw
      ++ "\n\nThe previous attempt failed with the following error:\n"
      ++ errorContext
      ++ "\nPlease correct the code and regenerate."

/-! ## Script Synthesizer (`generateTestScript`, lines 129–158) -/

/-- The executableCode object of a response part; its code field may be
absent. -/
structure ExecutableCode where
  code : Option String
deriving Repr, DecidableEq

/-- A response content part: may carry a text field and/or an
executableCode object (lines 149–156 probe both). -/
structure Part where
  text : Option String
  executableCode : Option ExecutableCode
deriving Repr, DecidableEq

/-- Whether a line contains the three-backtick code-fence delimiter
(line 151, the includes test); a string contains the pattern iff splitOn
splits it into more than one piece. -/
def containsFence (line : String) : Bool :=
  (line.splitOn "\x60\x60\x60").length != 1

/-- Line 151: split the text into lines, drop every line containing the
fence delimiter, and join the rest back with newlines. -/
def cleanText (t : String) : String :=
  String.intercalate "\n" ((t.splitOn "\n").filter (fun line => !containsFence line))

/-- Contribution of the executable-code else-if branch (lines 153–155):
the code verbatim followed by a newline when the code field is present and
truthy (non-empty), nothing otherwise. -/
def partCodeOutput (p : Part) : String :=
  match p.executableCode with
  | some ec =>
      match ec.code with
      | some c => if c = "" then "" else c ++ "\n"
      | none => ""
  | none => ""

/-- Contribution of one part to the accumulated output (lines 149–156): a
truthy text field takes the text branch (fence lines removed, then a
newline); otherwise the executable-code branch is probed. -/
def partOutput (p : Part) : String :=
  match p.text with
  | some t => if t = "" then partCodeOutput p else cleanText t ++ "\n"
  | none => partCodeOutput p

/-- The forEach accumulation over the parts (lines 147–156). -/
def partsOutput : List Part → String
  | [] => ""
  | p :: rest => partOutput p ++ partsOutput rest

/-- Lines 146–158: the returned script is the fixed provenance comment, a
blank line, then the accumulated output. -/
def extractOutput (parts : List Part) : String :=
  "// *** This code is generated by AI Agent ***\n\n" ++ partsOutput parts

/-- The content object of a candidate, whose parts may be absent. -/
structure Content where
  parts : Option (List Part)
deriving Repr

/-- One response candidate, whose `content` may be absent. -/
structure Candidate where
  content : Option Content
deriving Repr

/-- A generative-service response: a (possibly empty) candidate list. -/
structure GenResponse where
  candidates : List Candidate
deriving Repr

/-- Line 146: the parts of the first candidate, with every missing level
of the optional chain defaulting to the empty list. -/
def responseParts (r : GenResponse) : List Part :=
  match r.candidates.head? with
  | some c =>
      match c.content with
      | some ct => ct.parts.getD []
      | none => []
  | none => []

/-- Function generateTestScript (lines 123–159): builds the prompt, issues one
generation request (its outcome supplied as `svc`; a service error
propagates — there is no try/catch in this function), and extracts the
script from the response parts.  Returns the prompt actually sent paired
with the (possibly thrown) result. -/
def generateTestScript (ctx testdir : String) (fw : Framework)
    (errorContext : String) (svc : Except String GenResponse) :
    String × Except String String :=
  (promptText ctx testdir fw errorContext,
   match svc with
   | .error e => .error e
   | .ok r => .ok (extractOutput (responseParts r)))

/-! ## Script Runner (`executeTestScript`, lines 161–186) -/

/-- Outcome of the spawned external process under execPromise: the promise
resolves with stdout/stderr when the process exits zero and rejects with an
error carrying `stderr` and `message` otherwise. -/
inductive ProcOutcome where
  | exitZero (stdout stderr : String)
  | failed (stderr message : String)
deriving Repr

/-- Whether the external process exited zero. -/
def ProcOutcome.exitedZero : ProcOutcome → Bool
  | .exitZero _ _ => true
  | .failed _ _ => false

/-- The success/output record returned by executeTestScript. -/
structure ExecResult where
  success : Bool
  output : String
deriving Repr, DecidableEq

/-- Model of path.basename on a POSIX path. -/
def basename (p : String) : String :=
  ((p.splitOn "/").getLast?).getD p

/-- The per-framework command of the switch statement (lines 166–180);
the absolute path resolves the basename against the tests directory. -/
def execCommand (testdir : String) (fw : Framework) (filePath : String) : String :=
  match fw with
  | .PLAYWRIGHT => "npx playwright test " ++ basename filePath
  | .TESTCAFE => "npx testcafe chrome " ++ basename filePath
  | .SELENIUM => "npx mocha \"" ++ (testdir ++ "/" ++ basename filePath) ++ "\""

/-- Function executeTestScript (lines 161–186): changes into the tests
directory and runs the framework command; on exit zero returns success with
the captured stdout, otherwise the catch block returns failure with the
captured stderr, or with the exception message when stderr is empty and
hence JS-falsy.  The function is total: it never throws. -/
def executeTestScript (testdir : String) (fw : Framework) (filePath : String)
    (outcome : ProcOutcome) : ExecResult :=
  let _fullCommand := "cd " ++ testdir ++ " && " ++ execCommand testdir fw filePath
  match outcome with
  | .exitZero stdout _ => { success := true, output := stdout }
  | .failed stderr message =>
      { success := false,
        output := if stderr = "" then message else stderr }

/-! ## Repair Loop Controller (`generateAndDebug`, lines 188–219) and
Multi-Framework Driver (`generateAll`, lines 221–225) -/

/-- Observable actions of one run, in order: a generation request with the
prompt it carries, a file write with its path and content, and an external
process execution with its shell command. -/
inductive Event where
  | genRequest (fw : Framework) (prompt : String)
  | write (fw : Framework) (path : String) (content : String)
  | exec (fw : Framework) (command : String)
deriving Repr, DecidableEq

/-- The framework an event belongs to. -/
def Event.fw : Event → Framework
  | .genRequest f _ => f
  | .write f _ _ => f
  | .exec f _ => f

/-- Whether an event is a generation request. -/
def Event.isGen : Event → Bool
  | .genRequest _ _ => true
  | _ => false

/-- Whether an event is a file write. -/
def Event.isWrite : Event → Bool
  | .write _ _ _ => true
  | _ => false

/-- Whether an event is a process execution. -/
def Event.isExec : Event → Bool
  | .exec _ _ => true
  | _ => false

/-- The external world: the startup-computed context manifest and tests
directory, and per framework and attempt index the generative-service
outcome (`.error` models a thrown request error) and the spawned process
outcome. -/
structure Env where
  ctx : String
  testdir : String
  svc : Framework → Nat → Except String GenResponse
  proc : Framework → Nat → ProcOutcome

/-- Line 192: path.join of the tests directory and the framework output
file name. -/
def outputPath (testdir : String) (fw : Framework) : String :=
  testdir ++ "/" ++ OUTPUT_FILES fw

/-- Result of one `generateAndDebug` run: the recorded trace, the content of
the framework's output file (`none` if never written), the error that
escaped the function (`none` if it returned normally), and the final
`success` / `lastError` / `attempt` values. -/
structure RunOutcome where
  trace : List Event
  file : Option String
  thrown : Option String
  success : Bool
  lastError : String
  attempts : Nat
deriving Repr

/-- The while loop of generateAndDebug (lines 196–214), guarded by
attempt below MAX_ATTEMPTS and not success, with fuel standing for
MAX_ATTEMPTS minus attempt iterations remaining.  Each iteration requests generation (an uncaught
service error escapes the loop, since lines 199–202 have no try/catch),
writes the script to the fixed output path, executes it, and feeds
`result.success` / `result.output` into `success` / `lastError`. -/
def generateAndDebugLoop (env : Env) (fw : Framework) :
    Nat → Nat → Bool → String → Option String → List Event → RunOutcome
  | 0, attempt, succ, lastError, file, trace =>
      ⟨trace, file, none, succ, lastError, attempt⟩
  | fuel + 1, attempt, succ, lastError, file, trace =>
      if succ then ⟨trace, file, none, succ, lastError, attempt⟩
      else
        let pr := generateTestScript env.ctx env.testdir fw lastError (env.svc fw attempt)
        let trace1 := trace ++ [Event.genRequest fw pr.1]
        match pr.2 with
        | .error e => ⟨trace1, file, some e, succ, lastError, attempt⟩
        | .ok code =>
            let path := outputPath env.testdir fw
            let trace2 := trace1 ++ [Event.write fw path code]
            let result := executeTestScript env.testdir fw path (env.proc fw attempt)
            let trace3 := trace2 ++ [Event.exec fw (execCommand env.testdir fw path)]
            generateAndDebugLoop env fw fuel (attempt + 1)
              result.success result.output (some code) trace3

/-- Function generateAndDebug (lines 188–219): attempt starts at zero,
success starts false, lastError starts empty, no file written yet, then the
loop. -/
def generateAndDebug (env : Env) (fw : Framework) : RunOutcome :=
  generateAndDebugLoop env fw MAX_ATTEMPTS 0 false "" none []

/-- Result of `generateAll`: combined trace, the error that escaped (if any),
and each framework's run outcome (`none` when an earlier framework's
uncaught error prevented it from running at all). -/
structure AllOutcome where
  trace : List Event
  thrown : Option String
  playwrightRun : Option RunOutcome
  testcafeRun : Option RunOutcome
  seleniumRun : Option RunOutcome

/-- Function generateAll (lines 221–225): awaits generateAndDebug for
PLAYWRIGHT, then TESTCAFE, then SELENIUM, in that order; an error escaping
one run rejects `generateAll` itself and the remaining frameworks never
run. -/
def generateAll (env : Env) : AllOutcome :=
  let r1 := generateAndDebug env .PLAYWRIGHT
  match r1.thrown with
  | some e => ⟨r1.trace, some e, some r1, none, none⟩
  | none =>
      let r2 := generateAndDebug env .TESTCAFE
      match r2.thrown with
      | some e => ⟨r1.trace ++ r2.trace, some e, some r1, some r2, none⟩
      | none =>
          let r3 := generateAndDebug env .SELENIUM
          ⟨r1.trace ++ r2.trace ++ r3.trace, r3.thrown, some r1, some r2, some r3⟩

/-! ## Concrete environments, trees and spec-side views used by the claims -/

/-- Content of the last write event of a trace, if any. -/
def lastWriteContent (trace : List Event) : Option String :=
  (trace.filterMap fun e =>
    match e with
    | Event.write _ _ c => some c
    | _ => none).getLast?

/-- Relation ReachesFrom d entries d2 e: starting the scan at directory string `d`
with entries `entries`, the entry `e` sits in the directory whose full path
string is `d'`, reachable without ever passing through an excluded
(`node_modules` / `.git`) directory. -/
inductive ReachesFrom : String → List FsEntry → String → FsEntry → Prop where
  | here {d : String} {entries : List FsEntry} {e : FsEntry}
      (h : e ∈ entries) : ReachesFrom d entries d e
  | inside {d : String} {entries : List FsEntry} {name : String}
      {children : List FsEntry} {d' : String} {e : FsEntry}
      (hmem : FsEntry.dir name children ∈ entries)
      (hexcl : excludedDirs.contains name = false)
      (hrec : ReachesFrom (d ++ "/" ++ name) children d' e) :
      ReachesFrom d entries d' e

/-- A small concrete tree: a `node_modules` directory that even contains a
`.ts` file, next to a real source directory. -/
def sampleTree : List FsEntry :=
  [FsEntry.dir "node_modules" [FsEntry.file "dep.ts"],
   FsEntry.dir "src" [FsEntry.file "main.ts"]]

/-- Environment for the spec's concrete scenario: attempt 1 fails with
"Timeout 30000ms exceeded", attempt 2 succeeds. -/
def envTimeout : Env where
  ctx := "ctx"
  testdir := "/tests"
  svc := fun _ _ => .ok ⟨[]⟩
  proc := fun _ a =>
    if a = 0 then .failed "Timeout 30000ms exceeded" "Command failed"
    else .exitZero "2 passed" ""

/-- Environment in which every generative-service request is rejected. -/
def envGenThrow : Env where
  ctx := "ctx"
  testdir := "/tests"
  svc := fun _ _ => .error "Error: 429 Too Many Requests"
  proc := fun _ _ => .exitZero "" ""

/-- Environment where generation always succeeds (empty response) and every
execution fails. -/
def envAllFail : Env where
  ctx := "ctx"
  testdir := "/tests"
  svc := fun _ _ => .ok ⟨[]⟩
  proc := fun _ _ => .failed "assertion failed" "Command failed"

/-- The spec's tagged-union view of a response: each content part is either
a plain-text part or an executable-code part. -/
inductive SpecPart where
  | textPart (s : String)
  | codePart (c : String)
deriving Repr, DecidableEq

/-- The JSON shape a tagged part arrives in: a text part carries only
`text`, a code part carries only `executableCode.code`. -/
def SpecPart.toPart : SpecPart → Part
  | .textPart s => ⟨some s, none⟩
  | .codePart c => ⟨none, some ⟨some c⟩⟩

/-- A part with non-empty (JS-truthy) content. -/
def SpecPart.hasContent : SpecPart → Bool
  | .textPart s => s != ""
  | .codePart c => c != ""

/-- The spec's description of the synthesizer body: process parts in
response order, dropping every fence-bearing line of a plain-text part and
appending an executable-code part's code verbatim, one newline after each
retained part. -/
def synthesizerSpecBody : List SpecPart → String
  | [] => ""
  | .textPart s :: rest => cleanText s ++ "\n" ++ synthesizerSpecBody rest
  | .codePart c :: rest => c ++ "\n" ++ synthesizerSpecBody rest

/-- A part that is JS-falsy on both probed fields: no (or empty) `text`,
no (or empty) `executableCode.code`. -/
def blankPart (p : Part) : Bool :=
  (match p.text with
   | none => true
   | some t => t == "") &&
  (match p.executableCode with
   | none => true
   | some ec =>
      match ec.code with
      | none => true
      | some c => c == "")

/-- Environment whose service, on every request, answers with a single
candidate holding one field-less part, and whose executions fail. -/
def envBlank : Env where
  ctx := "ctx"
  testdir := "/tests"
  svc := fun _ _ =>
    .ok ⟨[Candidate.mk (some (Content.mk (some [Part.mk none none])))]⟩
  proc := fun _ _ => .failed "boom" "Command failed"

/-! ## Helper lemmas about the loop -/

/-- The runner's verdict is exactly "the process exited zero". -/
lemma executeTestScript_success (testdir : String) (fw : Framework)
    (filePath : String) (o : ProcOutcome) :
    (executeTestScript testdir fw filePath o).success = o.exitedZero := by
  cases o <;> rfl

/-- The loop performs at most `fuel` further iterations, so the final
attempt counter is at most `attempt + fuel`. -/
lemma loop_attempts_le (env : Env) (fw : Framework) :
    ∀ fuel attempt succ lastError file trace,
      (generateAndDebugLoop env fw fuel attempt succ lastError file trace).attempts
        ≤ attempt + fuel := by
  intro fuel
  induction fuel with
  | zero =>
      intro attempt succ lastError file trace
      simp [generateAndDebugLoop]
  | succ n ih =>
      intro attempt succ lastError file trace
      simp only [generateAndDebugLoop]
      split
      · simp
      · cases hsvc : env.svc fw attempt with
        | error e =>
            simp [generateTestScript, hsvc]
        | ok r =>
            simp only [generateTestScript, hsvc]
            calc (generateAndDebugLoop env fw n (attempt + 1) _ _ _ _).attempts
                ≤ (attempt + 1) + n := ih (attempt + 1) _ _ _ _
              _ = attempt + (n + 1) := by omega

/-- Each loop iteration records exactly one generation request. -/
lemma loop_gen_count_le (env : Env) (fw : Framework) :
    ∀ fuel attempt succ lastError file trace,
      ((generateAndDebugLoop env fw fuel attempt succ lastError file trace).trace.countP
          Event.isGen)
        ≤ trace.countP Event.isGen + fuel := by
  intro fuel
  induction fuel with
  | zero =>
      intro attempt succ lastError file trace
      simp [generateAndDebugLoop]
  | succ n ih =>
      intro attempt succ lastError file trace
      simp only [generateAndDebugLoop]
      split
      · simp
      · cases hsvc : env.svc fw attempt with
        | error e =>
            simp [generateTestScript, hsvc, List.countP_append, Event.isGen]
        | ok r =>
            simp only [generateTestScript, hsvc]
            refine le_trans (ih (attempt + 1) _ _ _ _) ?_
            simp [List.countP_append, Event.isGen, Event.isWrite, Event.isExec,
              List.countP_cons]
            omega

/-- Each loop iteration records at most one file write. -/
lemma loop_write_count_le (env : Env) (fw : Framework) :
    ∀ fuel attempt succ lastError file trace,
      ((generateAndDebugLoop env fw fuel attempt succ lastError file trace).trace.countP
          Event.isWrite)
        ≤ trace.countP Event.isWrite + fuel := by
  intro fuel
  induction fuel with
  | zero =>
      intro attempt succ lastError file trace
      simp [generateAndDebugLoop]
  | succ n ih =>
      intro attempt succ lastError file trace
      simp only [generateAndDebugLoop]
      split
      · simp
      · cases hsvc : env.svc fw attempt with
        | error e =>
            simp [generateTestScript, hsvc, List.countP_append, Event.isWrite]
        | ok r =>
            simp only [generateTestScript, hsvc]
            refine le_trans (ih (attempt + 1) _ _ _ _) ?_
            simp [List.countP_append, Event.isGen, Event.isWrite, Event.isExec,
              List.countP_cons]
            omega

/-- Each loop iteration records at most one process execution. -/
lemma loop_exec_count_le (env : Env) (fw : Framework) :
    ∀ fuel attempt succ lastError file trace,
      ((generateAndDebugLoop env fw fuel attempt succ lastError file trace).trace.countP
          Event.isExec)
        ≤ trace.countP Event.isExec + fuel := by
  intro fuel
  induction fuel with
  | zero =>
      intro attempt succ lastError file trace
      simp [generateAndDebugLoop]
  | succ n ih =>
      intro attempt succ lastError file trace
      simp only [generateAndDebugLoop]
      split
      · simp
      · cases hsvc : env.svc fw attempt with
        | error e =>
            simp [generateTestScript, hsvc, List.countP_append, Event.isExec]
        | ok r =>
            simp only [generateTestScript, hsvc]
            refine le_trans (ih (attempt + 1) _ _ _ _) ?_
            simp [List.countP_append, Event.isGen, Event.isWrite, Event.isExec,
              List.countP_cons]
            omega

/-- If every generation request for this framework succeeds, nothing ever
escapes the loop. -/
lemma loop_thrown_none (env : Env) (fw : Framework)
    (h : ∀ a, ∃ r, env.svc fw a = .ok r) :
    ∀ fuel attempt succ lastError file trace,
      (generateAndDebugLoop env fw fuel attempt succ lastError file trace).thrown
        = none := by
  intro fuel
  induction fuel with
  | zero =>
      intro attempt succ lastError file trace
      simp [generateAndDebugLoop]
  | succ n ih =>
      intro attempt succ lastError file trace
      simp only [generateAndDebugLoop]
      split
      · rfl
      · obtain ⟨r, hr⟩ := h attempt
        simp only [generateTestScript, hr]
        exact ih (attempt + 1) _ _ _ _

/-- The loop only ever appends to the trace it is given. -/
lemma loop_trace_grows (env : Env) (fw : Framework) :
    ∀ fuel attempt succ lastError file trace,
      ∃ tl, (generateAndDebugLoop env fw fuel attempt succ lastError file trace).trace
        = trace ++ tl := by
  intro fuel
  induction fuel with
  | zero =>
      intro attempt succ lastError file trace
      exact ⟨[], by simp [generateAndDebugLoop]⟩
  | succ n ih =>
      intro attempt succ lastError file trace
      simp only [generateAndDebugLoop]
      split
      · exact ⟨[], by simp⟩
      · cases hsvc : env.svc fw attempt with
        | error e =>
            exact ⟨[Event.genRequest fw
              (promptText env.ctx env.testdir fw lastError)],
              by simp [generateTestScript, hsvc]⟩
        | ok r =>
            simp only [generateTestScript, hsvc]
            obtain ⟨tl, htl⟩ := ih (attempt + 1)
              (executeTestScript env.testdir fw (outputPath env.testdir fw)
                (env.proc fw attempt)).success
              (executeTestScript env.testdir fw (outputPath env.testdir fw)
                (env.proc fw attempt)).output
              (some (extractOutput (responseParts r)))
              (trace ++ [Event.genRequest fw (promptText env.ctx env.testdir fw lastError)]
                ++ [Event.write fw (outputPath env.testdir fw) (extractOutput (responseParts r))]
                ++ [Event.exec fw (execCommand env.testdir fw (outputPath env.testdir fw))])
            refine ⟨[Event.genRequest fw (promptText env.ctx env.testdir fw lastError),
              Event.write fw (outputPath env.testdir fw) (extractOutput (responseParts r)),
              Event.exec fw (execCommand env.testdir fw (outputPath env.testdir fw))] ++ tl, ?_⟩
            rw [htl]
            simp

/-- Every write the loop records targets this framework's fixed output path,
every event belongs to this framework, and the tracked file content is the
content of the last recorded write. -/
lemma loop_write_invariant (env : Env) (fw : Framework) :
    ∀ fuel attempt succ lastError file trace,
      (∀ e ∈ trace, e.fw = fw ∧
        (∀ f p c, e = Event.write f p c → p = outputPath env.testdir fw)) →
      file = lastWriteContent trace →
      (∀ e ∈ (generateAndDebugLoop env fw fuel attempt succ lastError file trace).trace,
          e.fw = fw ∧
          (∀ f p c, e = Event.write f p c → p = outputPath env.testdir fw)) ∧
      (generateAndDebugLoop env fw fuel attempt succ lastError file trace).file
        = lastWriteContent
            (generateAndDebugLoop env fw fuel attempt succ lastError file trace).trace := by
  intro fuel
  induction fuel with
  | zero =>
      intro attempt succ lastError file trace hinv hfile
      simpa [generateAndDebugLoop] using ⟨hinv, hfile⟩
  | succ n ih =>
      intro attempt succ lastError file trace hinv hfile
      simp only [generateAndDebugLoop]
      split
      · exact ⟨hinv, hfile⟩
      · cases hsvc : env.svc fw attempt with
        | error e =>
            simp only [generateTestScript, hsvc]
            constructor
            · intro ev hev
              rcases List.mem_append.1 hev with h | h
              · exact hinv ev h
              · rcases List.mem_singleton.1 h with rfl
                exact ⟨rfl, by intro f p c h; cases h⟩
            · simpa [lastWriteContent, List.filterMap_append] using hfile
        | ok r =>
            simp only [generateTestScript, hsvc]
            apply ih
            · intro ev hev
              rcases List.mem_append.1 hev with hev | hev
              · rcases List.mem_append.1 hev with hev | hev
                · rcases List.mem_append.1 hev with hev | hev
                  · exact hinv ev hev
                  · rcases List.mem_singleton.1 hev with rfl
                    exact ⟨rfl, by intro f p c h; cases h⟩
                · rcases List.mem_singleton.1 hev with rfl
                  refine ⟨rfl, ?_⟩
                  intro f p c h
                  cases h
                  rfl
              · rcases List.mem_singleton.1 hev with rfl
                exact ⟨rfl, by intro f p c h; cases h⟩
            · simp [lastWriteContent, List.filterMap_append]

/-- How the loop's final state relates to its starting state: when no error
escapes, either it returned at once (the `fuel = 0` / `success` guard), or
the last attempt performed is the one whose generated script is the tracked
file content. -/
lemma loop_final_file (env : Env) (fw : Framework) :
    ∀ fuel attempt succ lastError file trace,
      (generateAndDebugLoop env fw fuel attempt succ lastError file trace).thrown = none →
      ((generateAndDebugLoop env fw fuel attempt succ lastError file trace).attempts
          = attempt ∧
        (generateAndDebugLoop env fw fuel attempt succ lastError file trace).file = file) ∨
      (attempt < (generateAndDebugLoop env fw fuel attempt succ lastError file trace).attempts ∧
        ∃ r, env.svc fw
            ((generateAndDebugLoop env fw fuel attempt succ lastError file trace).attempts - 1)
            = .ok r ∧
          (generateAndDebugLoop env fw fuel attempt succ lastError file trace).file
            = some (extractOutput (responseParts r))) := by
  intro fuel
  induction fuel with
  | zero =>
      intro attempt succ lastError file trace _
      left
      simp [generateAndDebugLoop]
  | succ n ih =>
      intro attempt succ lastError file trace hthrown
      simp only [generateAndDebugLoop] at hthrown ⊢
      by_cases hsucc : succ = true
      · subst hsucc
        left
        simp
      · replace hsucc : succ = false := by
          cases succ
          · rfl
          · exact absurd rfl hsucc
        subst hsucc
        simp only [if_neg (by simp : ¬ (false = true))] at hthrown ⊢
        cases hsvc : env.svc fw attempt with
        | error e =>
            simp [generateTestScript, hsvc] at hthrown
        | ok r =>
            simp only [generateTestScript, hsvc] at hthrown ⊢
            rcases ih (attempt + 1)
                (executeTestScript env.testdir fw (outputPath env.testdir fw)
                  (env.proc fw attempt)).success
                (executeTestScript env.testdir fw (outputPath env.testdir fw)
                  (env.proc fw attempt)).output
                (some (extractOutput (responseParts r)))
                (trace ++ [Event.genRequest fw (promptText env.ctx env.testdir fw lastError)]
                  ++ [Event.write fw (outputPath env.testdir fw) (extractOutput (responseParts r))]
                  ++ [Event.exec fw (execCommand env.testdir fw (outputPath env.testdir fw))])
                hthrown with h | h
            · right
              refine ⟨by omega, r, ?_, h.2⟩
              rw [h.1]
              simpa using hsvc
            · right
              exact ⟨by omega, h.2⟩

/-- When every generation succeeds and every execution fails, the loop
consumes all its fuel: it ends unsuccessful, with one attempt per unit of
fuel, and nothing escapes. -/
lemma loop_allfail (env : Env) (fw : Framework)
    (hsvc : ∀ a, ∃ r, env.svc fw a = .ok r)
    (hproc : ∀ a, (env.proc fw a).exitedZero = false) :
    ∀ fuel attempt lastError file trace,
      (generateAndDebugLoop env fw fuel attempt false lastError file trace).success = false ∧
      (generateAndDebugLoop env fw fuel attempt false lastError file trace).attempts
        = attempt + fuel ∧
      (generateAndDebugLoop env fw fuel attempt false lastError file trace).thrown = none := by
  intro fuel
  induction fuel with
  | zero =>
      intro attempt lastError file trace
      simp [generateAndDebugLoop]
  | succ n ih =>
      intro attempt lastError file trace
      simp only [generateAndDebugLoop]
      obtain ⟨r, hr⟩ := hsvc attempt
      simp only [if_neg (by simp : ¬ (false = true)), generateTestScript, hr]
      rw [executeTestScript_success, hproc attempt]
      refine ⟨(ih (attempt + 1) _ _ _).1, ?_, (ih (attempt + 1) _ _ _).2.2⟩
      rw [(ih (attempt + 1) _ _ _).2.1]
      omega

/-! ## The claims -/

/-- C1:  For every environment (hence every sequence of generation and
execution outcomes) and every framework, the Repair Loop Controller is a
total function (it terminates) and performs at most `MAX_ATTEMPTS = 3`
generate–write–execute attempts: the final attempt counter and the number of
recorded generation requests, file writes and process executions are all at
most `MAX_ATTEMPTS`. -/
theorem generateAndDebug_bounded_attempts (env : Env) (fw : Framework) :
    (generateAndDebug env fw).attempts ≤ MAX_ATTEMPTS ∧
    (generateAndDebug env fw).trace.countP Event.isGen ≤ MAX_ATTEMPTS ∧
    (generateAndDebug env fw).trace.countP Event.isWrite ≤ MAX_ATTEMPTS ∧
    (generateAndDebug env fw).trace.countP Event.isExec ≤ MAX_ATTEMPTS := by
  refine ⟨?_, ?_, ?_, ?_⟩
  · simpa using loop_attempts_le env fw MAX_ATTEMPTS 0 false "" none []
  · simpa using loop_gen_count_le env fw MAX_ATTEMPTS 0 false "" none []
  · simpa using loop_write_count_le env fw MAX_ATTEMPTS 0 false "" none []
  · simpa using loop_exec_count_le env fw MAX_ATTEMPTS 0 false "" none []

/-- C3:  For every framework and every non-empty prior-error string `e`,
the prompt for the next attempt is the framework's base template with a
failure suffix appended, and that suffix embeds `e` verbatim (the prompt is
literally `base ++ pre ++ e ++ post` for fixed `pre`/`post`); with no prior
error (the empty string, JS-falsy) the prompt is exactly the base
template. -/
theorem promptText_embeds_error (ctx testdir : String) (fw : Framework) (e : String) :
    (e ≠ "" →
      promptText ctx testdir fw e
        = basePrompts ctx testdir fw
          ++ "\n\nThe previous attempt failed with the following error:\n"
          ++ e
          ++ "\nPlease correct the code and regenerate.") ∧
    promptText ctx testdir fw "" = basePrompts ctx testdir fw := by
  constructor
  · intro he
    simp [promptText, he]
  · simp [promptText]

/-- Witness for C3 at a concrete error string and framework. -/
theorem promptText_embeds_error_witness :
    ("Timeout 30000ms exceeded" ≠ "" →
      promptText "ctx" "/tests" Framework.PLAYWRIGHT "Timeout 30000ms exceeded"
        = basePrompts "ctx" "/tests" Framework.PLAYWRIGHT
          ++ "\n\nThe previous attempt failed with the following error:\n"
          ++ "Timeout 30000ms exceeded"
          ++ "\nPlease correct the code and regenerate.") ∧
    promptText "ctx" "/tests" Framework.PLAYWRIGHT "" =
      basePrompts "ctx" "/tests" Framework.PLAYWRIGHT :=
  promptText_embeds_error "ctx" "/tests" Framework.PLAYWRIGHT "Timeout 30000ms exceeded"

/-- C9:  For every framework identifier and file path, the Script Runner
returns `{success := true, output := stdout}` exactly when the spawned
process exits zero, and `{success := false, output := stderr-or-message}`
otherwise, where the captured standard error is used unless it is empty, in
which case the exception message is used.  The function is total (it never
throws): the two cases below cover every process outcome. -/
theorem executeTestScript_verdict (testdir : String) (fw : Framework)
    (filePath stdout stderr message : String) :
    executeTestScript testdir fw filePath (ProcOutcome.exitZero stdout stderr)
      = { success := true, output := stdout } ∧
    executeTestScript testdir fw filePath (ProcOutcome.failed stderr message)
      = { success := false, output := if stderr = "" then message else stderr } ∧
    (∀ o : ProcOutcome,
      (executeTestScript testdir fw filePath o).success = o.exitedZero) := by
  exact ⟨rfl, rfl, fun o => executeTestScript_success testdir fw filePath o⟩

/-- Once `success` is set, the loop returns immediately, leaving every
component of the state untouched. -/
lemma loop_stop_when_success (env : Env) (fw : Framework) :
    ∀ fuel attempt lastError file trace,
      generateAndDebugLoop env fw fuel attempt true lastError file trace
        = ⟨trace, file, none, true, lastError, attempt⟩ := by
  intro fuel attempt lastError file trace
  cases fuel <;> simp [generateAndDebugLoop]

/-- One loop iteration with a successful generation: unfolds to the
recursive call on the extended trace. -/
lemma loop_step_ok (env : Env) (fw : Framework) (fuel attempt : Nat)
    (lastError : String) (file : Option String) (trace : List Event)
    (r : GenResponse) (hr : env.svc fw attempt = .ok r) :
    generateAndDebugLoop env fw (fuel + 1) attempt false lastError file trace
      = generateAndDebugLoop env fw fuel (attempt + 1)
          (executeTestScript env.testdir fw (outputPath env.testdir fw)
            (env.proc fw attempt)).success
          (executeTestScript env.testdir fw (outputPath env.testdir fw)
            (env.proc fw attempt)).output
          (some (extractOutput (responseParts r)))
          (trace ++ [Event.genRequest fw (promptText env.ctx env.testdir fw lastError)]
            ++ [Event.write fw (outputPath env.testdir fw) (extractOutput (responseParts r))]
            ++ [Event.exec fw (execCommand env.testdir fw (outputPath env.testdir fw))]) := by
  conv_lhs => rw [generateAndDebugLoop]
  simp only [if_neg (by simp : ¬ (false = true)), generateTestScript, hr]

/-- If attempts `attempt .. attempt+k-1` all generate fine but fail to
execute, and attempt `attempt+k` executes successfully within the remaining
fuel, the loop ends successfully right there: exactly `k+1` further
generation requests and executions are recorded. -/
lemma loop_success_at (env : Env) (fw : Framework) :
    ∀ fuel attempt k lastError file trace,
      k < fuel →
      (∀ j, attempt ≤ j → j ≤ attempt + k → ∃ r, env.svc fw j = .ok r) →
      (∀ j, attempt ≤ j → j < attempt + k → (env.proc fw j).exitedZero = false) →
      (env.proc fw (attempt + k)).exitedZero = true →
      (generateAndDebugLoop env fw fuel attempt false lastError file trace).success = true ∧
      (generateAndDebugLoop env fw fuel attempt false lastError file trace).attempts
        = attempt + k + 1 ∧
      (generateAndDebugLoop env fw fuel attempt false lastError file trace).trace.countP
          Event.isGen = trace.countP Event.isGen + (k + 1) ∧
      (generateAndDebugLoop env fw fuel attempt false lastError file trace).trace.countP
          Event.isExec = trace.countP Event.isExec + (k + 1) ∧
      (generateAndDebugLoop env fw fuel attempt false lastError file trace).thrown
        = none := by
  intro fuel
  induction fuel with
  | zero =>
      intro attempt k lastError file trace hk
      omega
  | succ n ih =>
      intro attempt k lastError file trace hk hsvc hfail hsucc
      obtain ⟨r, hr⟩ := hsvc attempt (le_refl _) (by omega)
      simp only [generateAndDebugLoop, if_neg (by simp : ¬ (false = true)),
        generateTestScript, hr]
      rw [executeTestScript_success]
      cases k with
      | zero =>
          rw [show attempt + 0 = attempt from rfl] at hsucc
          rw [hsucc, loop_stop_when_success]
          refine ⟨rfl, by simp, ?_, ?_, rfl⟩
          · simp [List.countP_append, List.countP_cons, Event.isGen]
          · simp [List.countP_append, List.countP_cons, Event.isGen, Event.isExec]
      | succ m =>
          rw [hfail attempt (le_refl _) (by omega)]
          have := ih (attempt + 1) m
            (executeTestScript env.testdir fw (outputPath env.testdir fw)
              (env.proc fw attempt)).output
            (some (extractOutput (responseParts r)))
            (trace ++ [Event.genRequest fw (promptText env.ctx env.testdir fw lastError)]
              ++ [Event.write fw (outputPath env.testdir fw) (extractOutput (responseParts r))]
              ++ [Event.exec fw (execCommand env.testdir fw (outputPath env.testdir fw))])
            (by omega)
            (fun j h1 h2 => hsvc j (by omega) (by omega))
            (fun j h1 h2 => hfail j (by omega) (by omega))
            (by rw [show attempt + 1 + m = attempt + (m + 1) from by omega]; exact hsucc)
          refine ⟨this.1, by rw [this.2.1]; omega, ?_, ?_, this.2.2.2.2⟩
          · rw [this.2.2.1]
            simp [List.countP_append, List.countP_cons, Event.isGen]
            omega
          · rw [this.2.2.2.1]
            simp [List.countP_append, List.countP_cons, Event.isGen, Event.isExec]
            omega

/-- C2:  With attempts numbered from 0: if attempts `0..k-1` generate but
fail to execute and attempt `k < MAX_ATTEMPTS` executes successfully, the
loop stops right there and reports success — exactly `k+1` generation
requests and `k+1` executions are recorded in the whole run, so no
generation request or execution for any later attempt is ever issued. -/
theorem generateAndDebug_stops_on_success (env : Env) (fw : Framework) (k : Nat)
    (hk : k < MAX_ATTEMPTS)
    (hsvc : ∀ j, j ≤ k → ∃ r, env.svc fw j = .ok r)
    (hfail : ∀ j, j < k → (env.proc fw j).exitedZero = false)
    (hsucc : (env.proc fw k).exitedZero = true) :
    (generateAndDebug env fw).success = true ∧
    (generateAndDebug env fw).attempts = k + 1 ∧
    (generateAndDebug env fw).trace.countP Event.isGen = k + 1 ∧
    (generateAndDebug env fw).trace.countP Event.isExec = k + 1 ∧
    (generateAndDebug env fw).thrown = none := by
  have := loop_success_at env fw MAX_ATTEMPTS 0 k "" none [] hk
    (fun j _ hj => hsvc j (by omega)) (fun j _ hj => hfail j (by omega))
    (by rw [show 0 + k = k from by omega]; exact hsucc)
  simpa [generateAndDebug] using this

/-- Witness for C2: in `envTimeout` the PLAYWRIGHT loop succeeds after
exactly 2 attempts, with exactly 2 generation requests and 2 executions. -/
theorem generateAndDebug_stops_on_success_witness :
    (generateAndDebug envTimeout Framework.PLAYWRIGHT).success = true ∧
    (generateAndDebug envTimeout Framework.PLAYWRIGHT).attempts = 1 + 1 ∧
    (generateAndDebug envTimeout Framework.PLAYWRIGHT).trace.countP Event.isGen = 1 + 1 ∧
    (generateAndDebug envTimeout Framework.PLAYWRIGHT).trace.countP Event.isExec = 1 + 1 ∧
    (generateAndDebug envTimeout Framework.PLAYWRIGHT).thrown = none :=
  generateAndDebug_stops_on_success envTimeout Framework.PLAYWRIGHT 1
    (by decide)
    (fun j _ => ⟨⟨[]⟩, rfl⟩)
    (fun j hj => by
      have : j = 0 := by omega
      subst this
      rfl)
    (by rfl)

/-! ## Reachability in a directory tree, for the scanner claims -/

/-- Whatever the scan of the tail lists, the scan of the whole list also
lists. -/
lemma mem_readDir_tail {x : String} {d : String} {rest : List FsEntry}
    (it : FsEntry) (h : x ∈ readDirRecursive d rest) :
    x ∈ readDirRecursive d (it :: rest) := by
  cases it with
  | file name =>
      by_cases hs : isSourceFile name = true
      · simp [readDirRecursive, hs]
        exact Or.inr h
      · simp only [readDirRecursive, if_neg hs]
        exact h
  | dir name children =>
      by_cases he : excludedDirs.contains name = true
      · simp only [readDirRecursive, if_pos he]
        exact h
      · simp only [readDirRecursive, if_neg he]
        exact List.mem_cons_of_mem _ (List.mem_append_right _ h)

/-- A non-excluded directory entry of the scanned list is listed with the
directory marker. -/
lemma dir_marker_mem {d name : String} {children : List FsEntry}
    {entries : List FsEntry}
    (hmem : FsEntry.dir name children ∈ entries)
    (hexcl : excludedDirs.contains name = false) :
    ("📁 " ++ d ++ "/" ++ name) ∈ readDirRecursive d entries := by
  induction entries with
  | nil => cases hmem
  | cons it rest ih =>
      rcases List.mem_cons.1 hmem with h | h
      · subst h
        simp only [readDirRecursive, hexcl]
        simp
      · exact mem_readDir_tail it (ih h)

/-- A source-file entry of the scanned list is listed with the file
marker. -/
lemma file_marker_mem {d name : String} {entries : List FsEntry}
    (hmem : FsEntry.file name ∈ entries)
    (hsrc : isSourceFile name = true) :
    ("📄 " ++ d ++ "/" ++ name) ∈ readDirRecursive d entries := by
  induction entries with
  | nil => cases hmem
  | cons it rest ih =>
      rcases List.mem_cons.1 hmem with h | h
      · subst h
        simp only [readDirRecursive, hsrc]
        simp
      · exact mem_readDir_tail it (ih h)

/-- Anything listed when scanning a non-excluded child directory is listed
when scanning the parent. -/
lemma mem_readDir_deeper {x : String} {d name : String} {children : List FsEntry}
    {entries : List FsEntry}
    (hmem : FsEntry.dir name children ∈ entries)
    (hexcl : excludedDirs.contains name = false)
    (hx : x ∈ readDirRecursive (d ++ "/" ++ name) children) :
    x ∈ readDirRecursive d entries := by
  induction entries with
  | nil => cases hmem
  | cons it rest ih =>
      rcases List.mem_cons.1 hmem with h | h
      · subst h
        simp only [readDirRecursive, hexcl, Bool.false_eq_true, if_neg,
          not_false_iff]
        exact List.mem_cons_of_mem _ (List.mem_append_left _ hx)
      · exact mem_readDir_tail it (ih h)

/-- Every reachable non-excluded directory and every reachable source file
is listed. -/
lemma reaches_mem {d entries d' e} (h : ReachesFrom d entries d' e) :
    (∀ name children, e = FsEntry.dir name children →
      excludedDirs.contains name = false →
      ("📁 " ++ d' ++ "/" ++ name) ∈ readDirRecursive d entries) ∧
    (∀ name, e = FsEntry.file name → isSourceFile name = true →
      ("📄 " ++ d' ++ "/" ++ name) ∈ readDirRecursive d entries) := by
  induction h with
  | here hmem =>
      constructor
      · intro name children he hexcl
        subst he
        exact dir_marker_mem hmem hexcl
      · intro name he hsrc
        subst he
        exact file_marker_mem hmem hsrc
  | inside hmem hexcl _ ih =>
      constructor
      · intro name children he hx
        exact mem_readDir_deeper hmem hexcl (ih.1 name children he hx)
      · intro name he hx
        exact mem_readDir_deeper hmem hexcl (ih.2 name he hx)

/-- C8:  The Project Context Scanner (a pure function of the tree — it
performs no writes) returns the newline-joined scan, and the scan (i) is
unchanged by deleting an entire directory named `node_modules` or `.git`,
whatever that directory contains — its contents, `.ts` files included, are
never recursed into or listed; (ii) lists, with the `📁` directory marker,
every directory reachable outside excluded directories; and (iii) lists,
with the `📄` file marker, every file with a `.ts` or `.js` name reachable
outside excluded directories. -/
theorem getProjectContext_listing :
    (∀ root entries, getProjectContext root entries
        = String.intercalate "\n" (readDirRecursive root entries)) ∧
    (∀ d name children rest, excludedDirs.contains name = true →
        readDirRecursive d (FsEntry.dir name children :: rest)
          = readDirRecursive d rest) ∧
    (∀ d entries d' name children,
        ReachesFrom d entries d' (FsEntry.dir name children) →
        excludedDirs.contains name = false →
        ("📁 " ++ d' ++ "/" ++ name) ∈ readDirRecursive d entries) ∧
    (∀ d entries d' name,
        ReachesFrom d entries d' (FsEntry.file name) →
        isSourceFile name = true →
        ("📄 " ++ d' ++ "/" ++ name) ∈ readDirRecursive d entries) := by
  refine ⟨fun _ _ => rfl, ?_, ?_, ?_⟩
  · intro d name children rest h
    simp only [readDirRecursive, h]
    simp
  · intro d entries d' name children h hexcl
    exact (reaches_mem h).1 name children rfl hexcl
  · intro d entries d' name h hsrc
    exact (reaches_mem h).2 name rfl hsrc

/-- Witness for C8 on `sampleTree`: the `node_modules` directory (with its
`.ts` file) contributes nothing to the scan, while `src` and
`src/main.ts` are listed. -/
theorem getProjectContext_listing_witness :
    readDirRecursive "/p" sampleTree
      = readDirRecursive "/p" [FsEntry.dir "src" [FsEntry.file "main.ts"]] ∧
    ("📁 " ++ "/p" ++ "/" ++ "src") ∈ readDirRecursive "/p" sampleTree ∧
    ("📄 " ++ ("/p" ++ "/" ++ "src") ++ "/" ++ "main.ts")
      ∈ readDirRecursive "/p" sampleTree := by
  refine ⟨getProjectContext_listing.2.1 "/p" "node_modules"
      [FsEntry.file "dep.ts"] [FsEntry.dir "src" [FsEntry.file "main.ts"]]
      (by decide), ?_, ?_⟩
  · exact getProjectContext_listing.2.2.1 "/p" sampleTree "/p" "src"
      [FsEntry.file "main.ts"]
      (ReachesFrom.here (by simp [sampleTree]))
      (by decide)
  · exact getProjectContext_listing.2.2.2 "/p" sampleTree ("/p" ++ "/" ++ "src")
      "main.ts"
      (@ReachesFrom.inside "/p" sampleTree "src" [FsEntry.file "main.ts"]
        ("/p" ++ "/" ++ "src") (FsEntry.file "main.ts")
        (by simp [sampleTree]) (by decide)
        (ReachesFrom.here (List.mem_singleton.2 rfl)))
      (by decide)

/-! ## C4: error propagation -/

/-- C4 counterexample:  A generation error raised inside
`generateTestScript` is *not* caught at the attempt boundary: run against a
service that rejects the first request, `generateAndDebug` itself throws
(its rejection reason is the service error), contradicting the claim that
no per-attempt error is ever thrown past the Repair Loop Controller. -/
theorem generateAndDebug_throws_generation_error :
    (generateAndDebug envGenThrow Framework.PLAYWRIGHT).thrown
      = some "Error: 429 Too Many Requests" := rfl

/-- C4 amended:  Execution errors are indeed caught at the attempt
boundary — `executeTestScript` never throws and its failure output becomes
the retry's error context — so as long as every generation request succeeds,
nothing escapes `generateAndDebug`; but a generation error is not caught and
propagates out (see the counterexample). -/
theorem generateAndDebug_catches_execution_errors (env : Env) (fw : Framework)
    (h : ∀ a, ∃ r, env.svc fw a = .ok r) :
    (generateAndDebug env fw).thrown = none :=
  loop_thrown_none env fw h MAX_ATTEMPTS 0 false "" none []

/-- Witness for the amended C4: with a service that always answers, the
loop never throws, whatever the execution outcomes. -/
theorem generateAndDebug_catches_execution_errors_witness :
    (generateAndDebug envTimeout Framework.SELENIUM).thrown = none :=
  generateAndDebug_catches_execution_errors envTimeout Framework.SELENIUM
    (fun _ => ⟨⟨[]⟩, rfl⟩)

/-! ## C5: the multi-framework driver -/

/-- C5 counterexample:  The driver's order is PLAYWRIGHT, TESTCAFE,
SELENIUM: in a run where all `MAX_ATTEMPTS` attempts fail for every
framework, all nine SELENIUM events come *after* all nine TESTCAFE events,
so no TESTCAFE loop runs after SELENIUM's — the claim's concrete scenario
("after all attempts fail for SELENIUM, the driver still proceeds to run
the TESTCAFE loop afterward") names an order that never occurs. -/
theorem generateAll_selenium_runs_last :
    ((generateAll envAllFail).trace.map Event.fw)
      = List.replicate 9 Framework.PLAYWRIGHT
        ++ List.replicate 9 Framework.TESTCAFE
        ++ List.replicate 9 Framework.SELENIUM ∧
    (generateAll envAllFail).seleniumRun.map RunOutcome.success = some false := by
  decide

/-- C5 amended:  The driver runs the repair loop once per framework,
strictly sequentially, with independent outcomes: when every generation
succeeds and every TESTCAFE execution fails, the TESTCAFE loop exhausts all
`MAX_ATTEMPTS` attempts without success, and the driver still proceeds to
run the SELENIUM loop afterward. -/
theorem generateAll_framework_isolation (env : Env)
    (hsvc : ∀ fw a, ∃ r, env.svc fw a = .ok r)
    (hfail : ∀ a, (env.proc Framework.TESTCAFE a).exitedZero = false) :
    (generateAll env).testcafeRun.map RunOutcome.success = some false ∧
    (generateAll env).testcafeRun.map RunOutcome.attempts = some MAX_ATTEMPTS ∧
    (generateAll env).seleniumRun.isSome = true := by
  have h1 : (generateAndDebug env .PLAYWRIGHT).thrown = none :=
    loop_thrown_none env _ (hsvc _) MAX_ATTEMPTS 0 false "" none []
  have h2 := loop_allfail env .TESTCAFE (hsvc _) hfail MAX_ATTEMPTS 0 "" none []
  have h2' : (generateAndDebug env .TESTCAFE).thrown = none := h2.2.2
  simp only [generateAll, h1, h2']
  refine ⟨?_, ?_, rfl⟩
  · simp [generateAndDebug, h2.1]
  · simp only [generateAndDebug]
    simp [h2.2.1]

/-- Witness for the amended C5 in the all-failing environment. -/
theorem generateAll_framework_isolation_witness :
    (generateAll envAllFail).testcafeRun.map RunOutcome.success = some false ∧
    (generateAll envAllFail).testcafeRun.map RunOutcome.attempts = some MAX_ATTEMPTS ∧
    (generateAll envAllFail).seleniumRun.isSome = true :=
  generateAll_framework_isolation envAllFail (fun _ _ => ⟨⟨[]⟩, rfl⟩) (fun _ => rfl)

/-! ## C6: the output file reflects the final attempt -/

/-- C6:  Every write the loop performs targets the framework's single
fixed output path; the file content at loop termination is the content of
the last write (each attempt overwrites the previous one — no versioning,
no rollback); and when the loop terminates normally having performed at
least one attempt, the file holds exactly the script synthesized by the
final attempt (whether or not that attempt's execution succeeded). -/
theorem generateAndDebug_file_reflects_final_attempt (env : Env) (fw : Framework) :
    (∀ e ∈ (generateAndDebug env fw).trace, e.fw = fw ∧
        ∀ f p c, e = Event.write f p c → p = outputPath env.testdir fw) ∧
    (generateAndDebug env fw).file
      = lastWriteContent (generateAndDebug env fw).trace ∧
    ((generateAndDebug env fw).thrown = none →
      0 < (generateAndDebug env fw).attempts →
      ∃ r, env.svc fw ((generateAndDebug env fw).attempts - 1) = .ok r ∧
        (generateAndDebug env fw).file = some (extractOutput (responseParts r))) := by
  have hinv := loop_write_invariant env fw MAX_ATTEMPTS 0 false "" none []
    (by simp) (by simp [lastWriteContent])
  refine ⟨hinv.1, hinv.2, ?_⟩
  intro hthrown hpos
  rcases loop_final_file env fw MAX_ATTEMPTS 0 false "" none [] hthrown with h | h
  · have hpos' : 0 < (generateAndDebugLoop env fw MAX_ATTEMPTS 0 false "" none []).attempts :=
      hpos
    exact absurd h.1 (by omega)
  · exact h.2

/-- Witness for C6: in the all-failing environment the loop terminates
normally after 3 attempts, and its file is the script of attempt 3. -/
theorem generateAndDebug_file_reflects_final_attempt_witness :
    ∃ r, envAllFail.svc Framework.PLAYWRIGHT
        ((generateAndDebug envAllFail Framework.PLAYWRIGHT).attempts - 1) = .ok r ∧
      (generateAndDebug envAllFail Framework.PLAYWRIGHT).file
        = some (extractOutput (responseParts r)) :=
  (generateAndDebug_file_reflects_final_attempt envAllFail Framework.PLAYWRIGHT).2.2
    rfl (by decide)

/-! ## C7: the synthesizer processes parts as the spec describes -/

/-- C7:  (i) Whatever the parts, the returned script starts with the
fixed provenance comment as its first line (the comment contains no newline
and is followed by one).  (ii) On any response of non-empty tagged parts,
the synthesizer output is exactly the provenance prefix followed by the
spec's in-order processing: fence-bearing lines removed from plain-text
parts, executable code appended verbatim. -/
theorem extractOutput_follows_spec (sps : List SpecPart)
    (h : sps.all SpecPart.hasContent = true) :
    (∀ parts : List Part, ∃ rest,
        extractOutput parts
          = "// *** This code is generated by AI Agent ***" ++ "\n" ++ rest) ∧
    extractOutput (sps.map SpecPart.toPart)
      = "// *** This code is generated by AI Agent ***\n\n"
        ++ synthesizerSpecBody sps := by
  constructor
  · intro parts
    exact ⟨"\n" ++ partsOutput parts, rfl⟩
  · have key : ∀ l : List SpecPart, l.all SpecPart.hasContent = true →
        partsOutput (l.map SpecPart.toPart) = synthesizerSpecBody l := by
      intro l
      induction l with
      | nil => intro _; rfl
      | cons p rest ih =>
          intro hl
          simp only [List.all_cons, Bool.and_eq_true] at hl
          cases p with
          | textPart s =>
              have hs : ¬ (s = "") := by
                simpa [SpecPart.hasContent] using hl.1
              simp [partsOutput, partOutput, SpecPart.toPart, hs, ih hl.2,
                synthesizerSpecBody, String.append_assoc]
          | codePart c =>
              have hc : ¬ (c = "") := by
                simpa [SpecPart.hasContent] using hl.1
              simp [partsOutput, partOutput, partCodeOutput, SpecPart.toPart,
                hc, ih hl.2, synthesizerSpecBody, String.append_assoc]
    simp only [extractOutput, key sps h]

/-- Witness for C7 on a concrete response: a prose part with a fenced code
block followed by an executable-code part. -/
theorem extractOutput_follows_spec_witness :
    (∀ parts : List Part, ∃ rest,
        extractOutput parts
          = "// *** This code is generated by AI Agent ***" ++ "\n" ++ rest) ∧
    extractOutput ([SpecPart.textPart "Here is the code:\n\x60\x60\x60ts\nfoo();\n\x60\x60\x60",
        SpecPart.codePart "bar();"].map SpecPart.toPart)
      = "// *** This code is generated by AI Agent ***\n\n"
        ++ synthesizerSpecBody
            [SpecPart.textPart "Here is the code:\n\x60\x60\x60ts\nfoo();\n\x60\x60\x60",
             SpecPart.codePart "bar();"] :=
  extractOutput_follows_spec
    [SpecPart.textPart "Here is the code:\n\x60\x60\x60ts\nfoo();\n\x60\x60\x60",
     SpecPart.codePart "bar();"]
    (by decide)

/-! ## C10: degenerate responses yield the bare provenance comment -/

/-- A blank part contributes nothing to the output. -/
lemma partOutput_blank {p : Part} (h : blankPart p = true) : partOutput p = "" := by
  rcases p with ⟨t, ec⟩
  cases t with
  | none =>
      cases ec with
      | none => rfl
      | some e =>
          rcases e with ⟨oc⟩
          cases oc with
          | none => rfl
          | some c =>
              simp only [blankPart, Bool.and_eq_true] at h
              have hc : c = "" := eq_of_beq h.2
              subst hc
              rfl
  | some t =>
      simp only [blankPart, Bool.and_eq_true] at h
      have ht : t = "" := eq_of_beq h.1
      subst ht
      cases ec with
      | none => rfl
      | some e =>
          rcases e with ⟨oc⟩
          cases oc with
          | none => rfl
          | some c =>
              have hc : c = "" := eq_of_beq h.2
              subst hc
              rfl

/-- Blank parts contribute nothing at all. -/
lemma partsOutput_blank {parts : List Part} (h : parts.all blankPart = true) :
    partsOutput parts = "" := by
  induction parts with
  | nil => rfl
  | cons p rest ih =>
      simp only [List.all_cons, Bool.and_eq_true] at h
      simp [partsOutput, partOutput_blank h.1, ih h.2]

/-- C10:  A response with no candidates, and likewise a response whose
parts are all field-less (blank), make `generateTestScript` return — without
throwing — a script that is exactly the provenance comment with no code;
and the attempt then proceeds: the loop's first three recorded events are
the generation request, the write of that near-empty script to the fixed
output path, and its execution. -/
theorem extractOutput_empty_response (r : GenResponse) (parts : List Part)
    (env : Env) (fw : Framework)
    (hr : r.candidates = [])
    (hblank : parts.all blankPart = true)
    (hsvc0 : env.svc fw 0
      = .ok (GenResponse.mk [Candidate.mk (some (Content.mk (some parts)))])) :
    extractOutput (responseParts r)
      = "// *** This code is generated by AI Agent ***\n\n" ∧
    extractOutput parts = "// *** This code is generated by AI Agent ***\n\n" ∧
    (generateAndDebug env fw).trace.take 3
      = [Event.genRequest fw (promptText env.ctx env.testdir fw ""),
         Event.write fw (outputPath env.testdir fw)
           "// *** This code is generated by AI Agent ***\n\n",
         Event.exec fw (execCommand env.testdir fw (outputPath env.testdir fw))] := by
  have hparts : extractOutput parts
      = "// *** This code is generated by AI Agent ***\n\n" := by
    simp [extractOutput, partsOutput_blank hblank]
  refine ⟨?_, hparts, ?_⟩
  · simp [extractOutput, responseParts, hr, partsOutput]
  · show (generateAndDebugLoop env fw MAX_ATTEMPTS 0 false "" none []).trace.take 3 = _
    have hresp : responseParts
        (GenResponse.mk [Candidate.mk (some (Content.mk (some parts)))]) = parts := rfl
    rw [show MAX_ATTEMPTS = 2 + 1 from rfl,
      loop_step_ok env fw 2 0 "" none [] _ hsvc0, hresp, hparts]
    obtain ⟨tl, htl⟩ := loop_trace_grows env fw 2 1
      (executeTestScript env.testdir fw (outputPath env.testdir fw) (env.proc fw 0)).success
      (executeTestScript env.testdir fw (outputPath env.testdir fw) (env.proc fw 0)).output
      (some "// *** This code is generated by AI Agent ***\n\n")
      ([] ++ [Event.genRequest fw (promptText env.ctx env.testdir fw "")]
        ++ [Event.write fw (outputPath env.testdir fw)
              "// *** This code is generated by AI Agent ***\n\n"]
        ++ [Event.exec fw (execCommand env.testdir fw (outputPath env.testdir fw))])
    rw [htl]
    simp [List.take_succ_cons]

/-- Witness for C10: in the blank-part environment, the TESTCAFE attempt
writes and executes the bare provenance comment. -/
theorem extractOutput_empty_response_witness :
    extractOutput (responseParts (GenResponse.mk []))
      = "// *** This code is generated by AI Agent ***\n\n" ∧
    extractOutput [Part.mk none none]
      = "// *** This code is generated by AI Agent ***\n\n" ∧
    (generateAndDebug envBlank Framework.TESTCAFE).trace.take 3
      = [Event.genRequest Framework.TESTCAFE
           (promptText envBlank.ctx envBlank.testdir Framework.TESTCAFE ""),
         Event.write Framework.TESTCAFE (outputPath envBlank.testdir Framework.TESTCAFE)
           "// *** This code is generated by AI Agent ***\n\n",
         Event.exec Framework.TESTCAFE
           (execCommand envBlank.testdir Framework.TESTCAFE
             (outputPath envBlank.testdir Framework.TESTCAFE))] :=
  extractOutput_empty_response (GenResponse.mk []) [Part.mk none none]
    envBlank Framework.TESTCAFE rfl (by decide) rfl

end AiAgent
